import Mathlib

/-!
Shallow embedding of the WhatsApp participation-ledger bot (src/app.py) and
proofs about its specified behaviour.

Modelling conventions:
- Python strings are Lean `String`s; the text helpers (`pyStrip`, `pyLower`,
  `strStartsWith`, `pySplit`, ...) mirror the Python string methods used by
  the source, restricted to the ASCII behaviour the command vocabulary needs.
- The SQLite table `participations` is a list of rows in rowid (insertion)
  order together with the AUTOINCREMENT counter.  `participation_date` is the
  TEXT actually stored by the sqlite3 datetime adapter, and the SQL
  `ORDER BY participation_date DESC` is modelled as a stable sort of the
  scanned rows by that text (SQLite itself leaves the relative order of equal
  keys unspecified; the stable sort of the rowid scan is the canonical
  deterministic refinement).
- Side effects (Twilio sends, report files) are returned as data.
-/

/-! ## Python string helpers used by app.py -/

/-- Python `str.strip()`: drop leading and trailing whitespace. -/
def pyStrip (s : String) : String :=
  ⟨((s.data.dropWhile Char.isWhitespace).reverse.dropWhile Char.isWhitespace).reverse⟩

/-- Python `str.lower()` restricted to ASCII letters (the command vocabulary
is ASCII, so this matches the source where it matters). -/
def pyLower (s : String) : String :=
  ⟨s.data.map Char.toLower⟩

/-- Python `str.startswith(p)`. -/
def strStartsWith (s p : String) : Bool :=
  p.data.isPrefixOf s.data

/-- Auxiliary for `pySplit`: accumulate the current word (reversed). -/
def pySplitAux : List Char → List Char → List String
  | [], cur => if cur = [] then [] else [⟨cur.reverse⟩]
  | c :: rest, cur =>
    if c.isWhitespace then
      if cur = [] then pySplitAux rest []
      else (⟨cur.reverse⟩ : String) :: pySplitAux rest []
    else pySplitAux rest (c :: cur)

/-- Python `str.split()` with no argument: split on whitespace runs,
discarding empty pieces. -/
def pySplit (s : String) : List String :=
  pySplitAux s.data []

/-- Everything after the first occurrence of a colon, i.e. the second
component of Python `s.split(str-colon, 1)` (only used when a colon is
present). -/
def afterFirstColon : List Char → List Char
  | [] => []
  | c :: cs => if c = ':' then cs else afterFirstColon cs

/-- Python truthiness of an optional string (a NULL column or an empty
string are both falsy). -/
def pyTruthy : Option String → Bool
  | none => false
  | some s => s ≠ ""

/-! ## The datetime values stored and re-parsed by app.py -/

/-- A Python `datetime.datetime` value, as produced by `datetime.now()`. -/
structure PyDateTime where
  year : Nat
  month : Nat
  day : Nat
  hour : Nat
  minute : Nat
  second : Nat
  microsecond : Nat
deriving Repr, DecidableEq

/-- Zero-pad the decimal representation of a number to a given width,
like the %0Nd conversions used by `datetime.isoformat`. -/
def padNum (w n : Nat) : String :=
  ⟨List.replicate (w - (toString n).length) '0' ++ (toString n).data⟩

/-- The sqlite3 default datetime adapter, `val.isoformat(" ")`: the stored
TEXT omits the fractional part entirely when `microsecond = 0`. -/
def adapt_datetime (d : PyDateTime) : String :=
  padNum 4 d.year ++ "-" ++ padNum 2 d.month ++ "-" ++ padNum 2 d.day ++ " " ++
  padNum 2 d.hour ++ ":" ++ padNum 2 d.minute ++ ":" ++ padNum 2 d.second ++
  (if d.microsecond = 0 then "" else "." ++ padNum 6 d.microsecond)

/-- Read exactly `n` leading decimal digits, returning their value and the
rest of the characters. -/
def readDigits : Nat → List Char → Nat → Option (Nat × List Char)
  | 0, cs, acc => some (acc, cs)
  | _ + 1, [], _ => none
  | n + 1, c :: cs, acc =>
    if c.isDigit then readDigits n cs (acc * 10 + (c.toNat - 48)) else none

/-- Consume one expected literal character. -/
def expectChar (c : Char) : List Char → Option (List Char)
  | [] => none
  | x :: xs => if x = c then some xs else none

/-- Numeric value of a digit string. -/
def digitsVal (cs : List Char) : Nat :=
  cs.foldl (fun acc c => acc * 10 + (c.toNat - 48)) 0

/-- The %f conversion of `datetime.strptime`: one to six digits, zero padded
on the right to microseconds.  Here it must consume the whole remainder of
the string, as in the formats used by app.py. -/
def readMicro (cs : List Char) : Option Nat :=
  if cs.length = 0 ∨ 6 < cs.length ∨ ¬ cs.all Char.isDigit then none
  else some (digitsVal cs * 10 ^ (6 - cs.length))

/-- Parse the date-and-time part shared by the two formats, i.e.
percent-Y-m-d H:M:S with the zero-padded widths the sqlite3 adapter emits,
including the range checks Python's `_strptime` regexes enforce. -/
def parseDateTimeCore (cs : List Char) : Option (PyDateTime × List Char) := do
  let (y, cs) ← readDigits 4 cs 0
  let cs ← expectChar '-' cs
  let (mo, cs) ← readDigits 2 cs 0
  let cs ← expectChar '-' cs
  let (d, cs) ← readDigits 2 cs 0
  let cs ← expectChar ' ' cs
  let (h, cs) ← readDigits 2 cs 0
  let cs ← expectChar ':' cs
  let (mi, cs) ← readDigits 2 cs 0
  let cs ← expectChar ':' cs
  let (s, cs) ← readDigits 2 cs 0
  if 1 ≤ mo ∧ mo ≤ 12 ∧ 1 ≤ d ∧ d ≤ 31 ∧ h ≤ 23 ∧ mi ≤ 59 ∧ s ≤ 61 then
    pure (⟨y, mo, d, h, mi, s, 0⟩, cs)
  else none

/-- Python `datetime.strptime(s, fmt)` for the fixed format
percent-Y-m-d H:M:S.f used at app.py lines 199 and 225: the dot and at least
one fractional digit are mandatory. -/
def pyStrptime (s : String) : Option PyDateTime := do
  let (dt, cs) ← parseDateTimeCore s.data
  let cs ← expectChar '.' cs
  let us ← readMicro cs
  pure { dt with microsecond := us }

/-- The parse performed by `pd.to_datetime` on the stored text (app.py line
126): the fractional seconds are optional there. -/
def pdParse (s : String) : Option PyDateTime := do
  let (dt, cs) ← parseDateTimeCore s.data
  match cs with
  | [] => pure dt
  | _ => do
    let cs ← expectChar '.' cs
    let us ← readMicro cs
    pure { dt with microsecond := us }

/-- strftime with format percent-d/m/Y (app.py line 199). -/
def strftime_ddmmyyyy (d : PyDateTime) : String :=
  padNum 2 d.day ++ "/" ++ padNum 2 d.month ++ "/" ++ padNum 4 d.year

/-- strftime with format percent-d/m H:M (app.py line 225). -/
def strftime_ddmm_hhmm (d : PyDateTime) : String :=
  padNum 2 d.day ++ "/" ++ padNum 2 d.month ++ " " ++ padNum 2 d.hour ++ ":" ++ padNum 2 d.minute

/-- strftime with format percent-d/m/Y H:M (app.py line 126). -/
def strftime_ddmmyyyy_hhmm (d : PyDateTime) : String :=
  padNum 2 d.day ++ "/" ++ padNum 2 d.month ++ "/" ++ padNum 4 d.year ++ " " ++
  padNum 2 d.hour ++ ":" ++ padNum 2 d.minute

/-! ## The participations table -/

/-- One row of the `participations` table (app.py lines 38-46). -/
structure Participation where
  id : Nat
  whatsapp_number : String
  profile_name : String
  participation_date : String
  video_title : Option String
deriving Repr, DecidableEq

/-- The database: rows in rowid (insertion) order plus the AUTOINCREMENT
counter for the next `id`. -/
structure DB where
  rows : List Participation
  next_id : Nat
deriving Repr, DecidableEq

/-- Well-formedness maintained by the schema: AUTOINCREMENT ids are strictly
increasing in insertion order and below the counter. -/
def WF (db : DB) : Prop :=
  db.rows.Pairwise (fun a b => a.id < b.id) ∧ ∀ r ∈ db.rows, r.id < db.next_id

/-- `add_participation` (app.py lines 50-59): INSERT a new row whose
`participation_date` is the adapted text of `datetime.now()`. -/
def add_participation (db : DB) (now : PyDateTime)
    (whatsapp_number profile_name : String) (video_title : Option String) : DB :=
  ⟨db.rows ++ [⟨db.next_id, whatsapp_number, profile_name, adapt_datetime now, video_title⟩],
   db.next_id + 1⟩

/-- Stable insertion (descending by stored date text) used to model the SQL
ORDER BY participation_date DESC over the rowid scan: an element is placed
before the first row whose date is less than or equal to its own, so rows
with equal dates stay in scan order. -/
def insertByDateDesc (r : Participation) : List Participation → List Participation
  | [] => [r]
  | x :: xs =>
    if x.participation_date.data ≤ r.participation_date.data then r :: x :: xs
    else x :: insertByDateDesc r xs

/-- Model of `ORDER BY participation_date DESC`: stable sort of the scanned
rows, newest stored text first. -/
def sortByDateDesc : List Participation → List Participation
  | [] => []
  | x :: xs => insertByDateDesc x (sortByDateDesc xs)

/-- The rows of one sender, in rowid order (the WHERE filter of the
per-user queries). -/
def userRecords (db : DB) (whatsapp_number : String) : List Participation :=
  db.rows.filter (fun r => r.whatsapp_number == whatsapp_number)

/-- The ordered row set produced by the SELECT of `get_user_history`
(app.py lines 61-72), before projection. -/
def userHistoryRows (db : DB) (whatsapp_number : String) : List Participation :=
  sortByDateDesc (userRecords db whatsapp_number)

/-- `get_user_history` (app.py lines 61-72): SELECT participation_date,
video_title ... WHERE whatsapp_number = ? ORDER BY participation_date DESC. -/
def get_user_history (db : DB) (whatsapp_number : String) : List (String × Option String) :=
  (userHistoryRows db whatsapp_number).map (fun r => (r.participation_date, r.video_title))

/-- The ordered row set produced by the SELECT of `get_last_10_records`
(app.py lines 74-82), before projection. -/
def last10Rows (db : DB) : List Participation :=
  (sortByDateDesc db.rows).take 10

/-- `get_last_10_records` (app.py lines 74-82): SELECT profile_name,
participation_date, video_title ... ORDER BY participation_date DESC LIMIT 10. -/
def get_last_10_records (db : DB) : List (String × String × Option String) :=
  (last10Rows db).map (fun r => (r.profile_name, r.participation_date, r.video_title))

/-- `delete_last_user_record` (app.py lines 84-100): SELECT the id of the
newest row of the sender (ORDER BY participation_date DESC LIMIT 1,
`fetchone`), and if present DELETE the row with that id and return true;
otherwise return false. -/
def delete_last_user_record (db : DB) (whatsapp_number : String) : DB × Bool :=
  match (sortByDateDesc (userRecords db whatsapp_number)).head? with
  | none => (db, false)
  | some r => (⟨db.rows.filter (fun x => x.id != r.id), db.next_id⟩, true)

/-! ## Report aggregation (app.py lines 104-162) -/

/-- The formatted date column computed at app.py line 126
(`pd.to_datetime(...).dt.strftime(percent-d/m/Y H:M)`).  On text the adapter
cannot produce, real pandas would raise; the model returns the text
unchanged there, a case no proved claim depends on. -/
def pandas_format_date (s : String) : String :=
  match pdParse s with
  | some dt => strftime_ddmmyyyy_hhmm dt
  | none => s

/-- One row of `report_summary` (app.py lines 129-133). -/
structure ReportRow where
  profile_name : String
  total_participations : Nat
  dates : String
  videos : String
deriving Repr, DecidableEq

/-- The pandas `groupby(profile_name)` pass: one group per distinct
`profile_name` (pandas sorts the group keys ascending), each group being the
rows with that name in original order. -/
def report_groups (recs : List Participation) : List (String × List Participation) :=
  (List.insertionSort (fun a b => a ≤ b) (recs.map (fun r => r.profile_name)).dedup).map
    (fun k => (k, recs.filter (fun r => r.profile_name == k)))

/-- `report_summary` (app.py lines 129-133): per group, the count of ids,
the formatted dates joined by a separator, and the non-null video titles
joined likewise (`dropna` keeps empty strings, drops only NULL). -/
def report_summary (recs : List Participation) : List ReportRow :=
  (report_groups recs).map (fun g =>
    ⟨g.1, g.2.length,
     String.intercalate (" | ") (g.2.map (fun r => pandas_format_date r.participation_date)),
     String.intercalate (" | ") (g.2.filterMap (fun r => r.video_title))⟩)

/-- The admin summary text built at app.py lines 146-156. -/
def summary_message (recs : List Participation) (base_url : String) : String :=
  "📊 *Relatório de Participação*\n\n" ++
  String.join ((report_summary recs).map
    (fun row => "*" ++ row.profile_name ++ "*: " ++ toString row.total_participations ++ " participações\n")) ++
  "\nBaixe o relatório completo em Excel aqui:\n" ++ base_url ++ "reports/relatorio_participacao.xlsx"

/-- Observable outcome of one report run: the messages handed to the Twilio
client and the export files written. -/
structure ReportOutcome where
  notifications : List String
  files_written : List String
deriving Repr, DecidableEq

/-- `generate_and_send_report` (app.py lines 104-162).  The scheduler invokes
it with `on_demand = false` (the parameter default); the admin command
invokes it with `on_demand = true`.  On an empty table it returns before any
file is written, notifying only when on demand. -/
def generate_and_send_report (recs : List Participation) (on_demand : Bool)
    (base_url : String) : ReportOutcome :=
  if recs.isEmpty then
    ⟨if on_demand then ["ℹ️ Nenhum registro de participação encontrado para gerar o relatório."] else [],
     []⟩
  else
    ⟨[summary_message recs base_url],
     ["reports/relatorio_participacao.csv", "reports/relatorio_participacao.xlsx"]⟩

/-! ## The webhook handler (app.py lines 174-247) -/

/-- The HTTP-observable result of one webhook invocation: a TwiML-wrapped
message, the explicit empty 204 acknowledgment, or an uncaught exception
(HTTP 500). -/
inductive WebhookResult where
  | message (s : String)
  | empty204
  | error
deriving Repr, DecidableEq

/-- Option-valued map used to model a Python loop that can raise on any
element (the result is none exactly when some element fails). -/
def optionMapM (f : α → Option β) : List α → Option (List β)
  | [] => some []
  | a :: as =>
    match f a, optionMapM f as with
    | some b, some bs => some (b :: bs)
    | _, _ => none

/-- The per-record suffix at app.py line 200: shown only when the stored
title is truthy (non-NULL and non-empty). -/
def title_info_history (t : Option String) : String :=
  if pyTruthy t then " (Vídeo: " ++ t.getD "" ++ ")" else ""

/-- The per-record suffix at app.py line 226. -/
def title_info_last10 (t : Option String) : String :=
  if pyTruthy t then " (" ++ t.getD "" ++ ")" else ""

/-- The `/meu historico` reply (app.py lines 192-201), including the
unguarded `strptime` re-parse of every stored date. -/
def historyResponse (profile_name : String) (records : List (String × Option String)) : WebhookResult :=
  if records.isEmpty then .message ("Você ainda não tem nenhuma participação registrada.")
  else
    match optionMapM (fun r => (pyStrptime r.1).map
        (fun dt => "- " ++ strftime_ddmmyyyy dt ++ title_info_history r.2 ++ "\n")) records with
    | none => .error
    | some lines =>
      .message ("Olá, " ++ profile_name ++ "! Você participou *" ++ toString records.length ++
        "* vez(es).\n\n*Datas*:\n" ++ String.join lines)

/-- The `/ultimos registros` reply (app.py lines 218-227). -/
def last10Response (records : List (String × String × Option String)) : WebhookResult :=
  if records.isEmpty then .message ("Nenhum registro encontrado.")
  else
    match optionMapM (fun r => (pyStrptime r.2.1).map
        (fun dt => "- " ++ r.1 ++ " em " ++ strftime_ddmm_hhmm dt ++ title_info_last10 r.2.2 ++ "\n")) records with
    | none => .error
    | some lines => .message ("*Últimos 10 Registros*:\n\n" ++ String.join lines)

/-- The `/ajuda` text (app.py lines 203-209). -/
def helpText : String :=
  "🤖 *Comandos do Bot de Gravações*\n\n" ++
  "*/participar* - Registra sua participação na gravação de hoje.\n_Ex: `Participei: vídeo de highlights`_\n\n" ++
  "*/meu historico* - Mostra todas as suas participações.\n\n" ++
  "*/ajuda* - Mostra esta mensagem."

/-- The record triggers of app.py line 185. -/
def startsTrigger (msg_lower : String) : Bool :=
  strStartsWith msg_lower ("participei") || strStartsWith msg_lower ("gravei") ||
  strStartsWith msg_lower ("/participar")

/-- The label extraction of app.py lines 186-188: when the stripped original
message contains a colon, everything after the first colon, stripped,
becomes the stored title; otherwise the title is NULL. -/
def parsed_video_title (incoming_msg : String) : Option String :=
  if incoming_msg.data.contains ':' then
    some (pyStrip ⟨afterFirstColon incoming_msg.data⟩)
  else none

/-- `whatsapp_webhook` (app.py lines 174-247).  `admin` is the configured
ADMIN_PHONE_NUMBER; `now` is the clock value `datetime.now()` would return
inside `add_participation`.  Report delivery in the `/relatorio agora`
branch goes through the external notifier (`generate_and_send_report`) and
the webhook itself returns no content. -/
def whatsapp_webhook (db : DB) (now : PyDateTime) (admin : String)
    (body fromNumber : String) (profileNameOpt : Option String) : DB × WebhookResult :=
  let incoming_msg := pyStrip body
  let profile_name := profileNameOpt.getD fromNumber
  let msg_lower := pyLower incoming_msg
  if startsTrigger msg_lower then
    let video_title : Option String := parsed_video_title incoming_msg
    (add_participation db now fromNumber profile_name video_title,
     .message ("✅ Olá, " ++ profile_name ++ "! Sua participação foi registrada com sucesso!"))
  else if msg_lower = "/meu historico" then
    (db, historyResponse profile_name (get_user_history db fromNumber))
  else if msg_lower = "/ajuda" then
    (db, .message helpText)
  else if fromNumber = admin then
    if msg_lower = "/relatorio agora" then
      (db, .empty204)
    else if msg_lower = "/ultimos registros" then
      (db, last10Response (get_last_10_records db))
    else if strStartsWith msg_lower ("/corrigir ultimo") then
      if 2 < (pySplit msg_lower).length then
        (db, .empty204)
      else
        let res := delete_last_user_record db fromNumber
        (res.1, .message (if res.2 then
          "✅ Seu último registro de participação foi removido. Por favor, registre novamente se necessário."
        else "❌ Você não possui registros para corrigir."))
    else (db, .empty204)
  else (db, .empty204)

/-! ## Ordering relations for the query results -/

/-- The order the stable-sort embedding actually produces: stored date text
descending, rows with equal date text in id-ascending (insertion) order. -/
def newestFirst (a b : Participation) : Prop :=
  b.participation_date.data < a.participation_date.data ∨
    (a.participation_date.data = b.participation_date.data ∧ a.id < b.id)

/-- The order claimed by the specification for history and listing queries:
timestamp descending with ties in id-descending order. -/
def specClaimedOrder (a b : Participation) : Prop :=
  b.participation_date.data < a.participation_date.data ∨
    (a.participation_date.data = b.participation_date.data ∧ b.id < a.id)

instance : DecidableRel newestFirst := fun a b => by
  unfold newestFirst
  infer_instance

instance : DecidableRel specClaimedOrder := fun a b => by
  unfold specClaimedOrder
  infer_instance

/-! ## Lemmas about the stable sort -/

theorem perm_insertByDateDesc (r : Participation) (l : List Participation) :
    List.Perm (insertByDateDesc r l) (r :: l) := by
  induction l with
  | nil => simp [insertByDateDesc]
  | cons x xs ih =>
    by_cases h : x.participation_date.data ≤ r.participation_date.data
    · simp [insertByDateDesc, h]
    · simp only [insertByDateDesc, if_neg h]
      exact (ih.cons x).trans (List.Perm.swap r x xs)

theorem perm_sortByDateDesc (l : List Participation) :
    List.Perm (sortByDateDesc l) l := by
  induction l with
  | nil => simp [sortByDateDesc]
  | cons x xs ih => exact (perm_insertByDateDesc x (sortByDateDesc xs)).trans (ih.cons x)

theorem mem_sortByDateDesc {r : Participation} {l : List Participation} :
    r ∈ sortByDateDesc l ↔ r ∈ l :=
  (perm_sortByDateDesc l).mem_iff

theorem pairwise_dateGe_insertByDateDesc {r : Participation} {l : List Participation}
    (h : l.Pairwise (fun a b => b.participation_date.data ≤ a.participation_date.data)) :
    (insertByDateDesc r l).Pairwise (fun a b => b.participation_date.data ≤ a.participation_date.data) := by
  induction l with
  | nil => simp [insertByDateDesc]
  | cons x xs ih =>
    rcases List.pairwise_cons.mp h with ⟨hx, hxs⟩
    by_cases hc : x.participation_date.data ≤ r.participation_date.data
    · simp only [insertByDateDesc, if_pos hc]
      refine List.pairwise_cons.mpr ⟨?_, h⟩
      intro z hz
      rcases List.mem_cons.mp hz with rfl | hz
      · exact hc
      · exact le_trans (hx z hz) hc
    · simp only [insertByDateDesc, if_neg hc]
      refine List.pairwise_cons.mpr ⟨?_, ih hxs⟩
      intro z hz
      rcases List.mem_cons.mp ((perm_insertByDateDesc r xs).mem_iff.mp hz) with rfl | hz
      · exact le_of_lt (lt_of_not_le hc)
      · exact hx z hz

theorem pairwise_dateGe_sortByDateDesc (l : List Participation) :
    (sortByDateDesc l).Pairwise (fun a b => b.participation_date.data ≤ a.participation_date.data) := by
  induction l with
  | nil => simp [sortByDateDesc]
  | cons x xs ih => exact pairwise_dateGe_insertByDateDesc ih

theorem pairwise_newestFirst_insertByDateDesc {r : Participation} {l : List Participation}
    (h : l.Pairwise newestFirst) (hid : ∀ y ∈ l, r.id < y.id) :
    (insertByDateDesc r l).Pairwise newestFirst := by
  induction l with
  | nil => simp [insertByDateDesc]
  | cons x xs ih =>
    rcases List.pairwise_cons.mp h with ⟨hx, hxs⟩
    by_cases hc : x.participation_date.data ≤ r.participation_date.data
    · simp only [insertByDateDesc, if_pos hc]
      refine List.pairwise_cons.mpr ⟨?_, h⟩
      intro z hz
      rcases List.mem_cons.mp hz with rfl | hz
      · rcases lt_or_eq_of_le hc with hlt | heq
        · exact Or.inl hlt
        · exact Or.inr ⟨heq.symm, hid z (List.mem_cons_self z xs)⟩
      · have hxz := hx z hz
        have hzd : z.participation_date.data ≤ r.participation_date.data := by
          rcases hxz with hlt | ⟨heq, _⟩
          · exact le_trans (le_of_lt hlt) hc
          · exact le_trans (le_of_eq heq.symm) hc
        rcases lt_or_eq_of_le hzd with hlt | heq
        · exact Or.inl hlt
        · exact Or.inr ⟨heq.symm, hid z (List.mem_cons_of_mem x hz)⟩
    · simp only [insertByDateDesc, if_neg hc]
      refine List.pairwise_cons.mpr
        ⟨?_, ih hxs (fun y hy => hid y (List.mem_cons_of_mem x hy))⟩
      intro z hz
      rcases List.mem_cons.mp ((perm_insertByDateDesc r xs).mem_iff.mp hz) with rfl | hz
      · exact Or.inl (lt_of_not_le hc)
      · exact hx z hz

theorem pairwise_newestFirst_sortByDateDesc {l : List Participation}
    (h : l.Pairwise (fun a b => a.id < b.id)) :
    (sortByDateDesc l).Pairwise newestFirst := by
  induction l with
  | nil => simp [sortByDateDesc]
  | cons x xs ih =>
    rcases List.pairwise_cons.mp h with ⟨hx, hxs⟩
    exact pairwise_newestFirst_insertByDateDesc (ih hxs)
      (fun y hy => hx y (mem_sortByDateDesc.mp hy))

/-! ## Lemmas about ids and filters -/

theorem id_inj {l : List Participation} (h : l.Pairwise (fun a b => a.id < b.id))
    {x y : Participation} (hx : x ∈ l) (hy : y ∈ l) (hxy : x.id = y.id) : x = y := by
  induction l with
  | nil => cases hx
  | cons a t ih =>
    rcases List.pairwise_cons.mp h with ⟨ha, ht⟩
    rcases List.mem_cons.mp hx with h1 | h1
    · rcases List.mem_cons.mp hy with h2 | h2
      · rw [h1, h2]
      · subst h1
        exact absurd (ha y h2) (by omega)
    · rcases List.mem_cons.mp hy with h2 | h2
      · subst h2
        exact absurd (ha x h1) (by omega)
      · exact ih ht h1 h2

theorem length_filter_ne_id {l : List Participation} (h : l.Pairwise (fun a b => a.id < b.id))
    {r : Participation} (hr : r ∈ l) :
    (l.filter (fun x => x.id != r.id)).length + 1 = l.length := by
  induction l with
  | nil => cases hr
  | cons a t ih =>
    rcases List.pairwise_cons.mp h with ⟨ha, ht⟩
    rcases List.mem_cons.mp hr with rfl | hr
    · have hid : (r.id != r.id) = false := by simp
      have hall : t.filter (fun x => x.id != r.id) = t := by
        apply List.filter_eq_self.mpr
        intro x hx
        have := ha x hx
        simp only [bne_iff_ne, ne_eq, decide_eq_true_eq]
        omega
      simp [List.filter_cons, hid, hall]
    · have haid : (a.id != r.id) = true := by
        have h1 := ha r hr
        simp only [bne_iff_ne, ne_eq]
        omega
      have h2 := ih ht hr
      simp only [List.filter_cons, haid, if_true, List.length_cons]
      omega

/-! ## Claim C1 -/

/-- Claim C1: for every well-formed ledger state and every sender, if the
sender has at least one record then `delete_last_user_record` returns true,
deletes exactly one record of that sender having the maximal stored
timestamp, reduces the total row count and that sender's record count by
exactly one, and leaves every other sender's records unchanged; if the
sender has no records it returns false and the ledger is unchanged. -/
theorem claim_C1_delete_last_user_record (db : DB) (hwf : WF db) (n : String) :
    (userRecords db n = [] → delete_last_user_record db n = (db, false)) ∧
    (userRecords db n ≠ [] →
      (delete_last_user_record db n).2 = true ∧
      ∃ r ∈ userRecords db n,
        (∀ x ∈ userRecords db n, x.participation_date.data ≤ r.participation_date.data) ∧
        (delete_last_user_record db n).1.rows = db.rows.filter (fun x => x.id != r.id) ∧
        (delete_last_user_record db n).1.rows.length + 1 = db.rows.length ∧
        (userRecords (delete_last_user_record db n).1 n).length + 1 = (userRecords db n).length ∧
        ∀ m, m ≠ n → userRecords (delete_last_user_record db n).1 m = userRecords db m) := by
  have hpw : db.rows.Pairwise (fun a b => a.id < b.id) := hwf.1
  have hpwu : (userRecords db n).Pairwise (fun a b => a.id < b.id) :=
    hpw.sublist (List.filter_sublist db.rows)
  constructor
  · intro hempty
    unfold delete_last_user_record
    rw [hempty]
    simp [sortByDateDesc]
  · intro hne
    have hnes : sortByDateDesc (userRecords db n) ≠ [] := by
      intro h0
      have hlen := (perm_sortByDateDesc (userRecords db n)).length_eq
      rw [h0] at hlen
      exact hne (List.length_eq_zero.mp hlen.symm)
    obtain ⟨r, rest, hsort⟩ := List.exists_cons_of_ne_nil hnes
    have hdel : delete_last_user_record db n =
        (⟨db.rows.filter (fun x => x.id != r.id), db.next_id⟩, true) := by
      unfold delete_last_user_record
      rw [hsort]
      rfl
    have hrmem : r ∈ userRecords db n := by
      refine mem_sortByDateDesc.mp ?_
      rw [hsort]
      exact List.mem_cons_self r rest
    have hrrows : r ∈ db.rows := List.mem_of_mem_filter hrmem
    have hrn : r.whatsapp_number = n := by
      have := (List.mem_filter.mp hrmem).2
      simpa using this
    have hmax : ∀ x ∈ userRecords db n, x.participation_date.data ≤ r.participation_date.data := by
      intro x hx
      have hxs : x ∈ sortByDateDesc (userRecords db n) := mem_sortByDateDesc.mpr hx
      rw [hsort] at hxs
      rcases List.mem_cons.mp hxs with rfl | hxs
      · exact le_refl _
      · have hp := pairwise_dateGe_sortByDateDesc (userRecords db n)
        rw [hsort] at hp
        exact (List.pairwise_cons.mp hp).1 x hxs
    refine ⟨by rw [hdel], r, hrmem, hmax, by rw [hdel], ?_, ?_, ?_⟩
    · rw [hdel]
      exact length_filter_ne_id hpw hrrows
    · rw [hdel]
      show ((db.rows.filter (fun x => x.id != r.id)).filter
          (fun x => x.whatsapp_number == n)).length + 1 = (userRecords db n).length
      rw [List.filter_comm]
      exact length_filter_ne_id hpwu hrmem
    · intro m hm
      rw [hdel]
      show (db.rows.filter (fun x => x.id != r.id)).filter (fun x => x.whatsapp_number == m)
          = userRecords db m
      rw [List.filter_comm]
      apply List.filter_eq_self.mpr
      intro x hx
      have hxm : x.whatsapp_number = m := by
        have := (List.mem_filter.mp hx).2
        simpa using this
      have hxrows : x ∈ db.rows := List.mem_of_mem_filter hx
      simp only [bne_iff_ne, ne_eq, decide_eq_true_eq]
      intro hxid
      have : x = r := id_inj hpw hxrows hrrows hxid
      rw [this] at hxm
      rw [hrn] at hxm
      exact hm hxm.symm

/-- Witness for claim C1 at a concrete two-sender ledger. -/
theorem claim_C1_witness :
    (delete_last_user_record
      (⟨[⟨1, "whatsapp:+A", "A", "2024-01-01 10:00:00.000001", none⟩,
         ⟨2, "whatsapp:+B", "B", "2024-01-02 10:00:00.000001", some ("x")⟩], 3⟩ : DB)
      ("whatsapp:+A")).2 = true :=
  ((claim_C1_delete_last_user_record
    ⟨[⟨1, "whatsapp:+A", "A", "2024-01-01 10:00:00.000001", none⟩,
      ⟨2, "whatsapp:+B", "B", "2024-01-02 10:00:00.000001", some ("x")⟩], 3⟩
    (by constructor
        · decide
        · decide)
    ("whatsapp:+A")).2 (by decide)).1

/-! ## Claim C2 -/

/-- Claim C2 as stated is false: two records of one sender with identical
stored timestamps come back from the history query in id-ascending order
(the stable sort of the rowid scan), not in the claimed id-descending
order. -/
theorem claim_C2_counterexample :
    ¬ (userHistoryRows
        (⟨[⟨1, "whatsapp:+A", "A", "2024-01-01 10:00:00.000001", none⟩,
           ⟨2, "whatsapp:+A", "A", "2024-01-01 10:00:00.000001", none⟩], 3⟩ : DB)
        ("whatsapp:+A")).Pairwise specClaimedOrder := by
  decide

/-- Claim C2 (amended): for every well-formed ledger state, the row
sequences behind the history query and the listing query are ordered by
stored timestamp descending, and any two rows with equal timestamps appear
in id-ascending (insertion) order — the deterministic stable-sort reading of
the ORDER BY, whose tie order SQLite itself leaves unspecified. -/
theorem claim_C2_history_listing_order (db : DB) (hwf : WF db) (n : String) :
    (userHistoryRows db n).Pairwise newestFirst ∧
    (last10Rows db).Pairwise newestFirst := by
  have h1 : (userRecords db n).Pairwise (fun a b => a.id < b.id) :=
    hwf.1.sublist (List.filter_sublist db.rows)
  exact ⟨pairwise_newestFirst_sortByDateDesc h1,
    (pairwise_newestFirst_sortByDateDesc hwf.1).sublist (List.take_sublist 10 _)⟩

/-- Witness for the amended claim C2 at a concrete ledger. -/
theorem claim_C2_witness :
    (userHistoryRows
      (⟨[⟨1, "whatsapp:+A", "A", "2024-01-01 10:00:00.000001", none⟩,
         ⟨2, "whatsapp:+A", "A", "2024-01-01 10:00:00.000001", none⟩], 3⟩ : DB)
      ("whatsapp:+A")).Pairwise newestFirst :=
  (claim_C2_history_listing_order
    ⟨[⟨1, "whatsapp:+A", "A", "2024-01-01 10:00:00.000001", none⟩,
      ⟨2, "whatsapp:+A", "A", "2024-01-01 10:00:00.000001", none⟩], 3⟩
    (by constructor
        · decide
        · decide)
    ("whatsapp:+A")).1

/-! ## Claim C3 -/

/-- Claim C3 as stated is false: if a record is appended with the same
stored timestamp text as an existing record of the same sender (two calls
of `datetime.now()` in the same microsecond), the history query returns the
older record first, not the just-appended one. -/
theorem claim_C3_counterexample :
    (userHistoryRows
        (add_participation (⟨[⟨0, "whatsapp:+A", "A", "2024-01-01 10:00:00.000001", none⟩], 1⟩ : DB)
          ⟨2024, 1, 1, 10, 0, 0, 1⟩ ("whatsapp:+A") ("A") none)
        ("whatsapp:+A")).head? =
      some ⟨0, "whatsapp:+A", "A", "2024-01-01 10:00:00.000001", none⟩ ∧
    (userHistoryRows
        (add_participation (⟨[⟨0, "whatsapp:+A", "A", "2024-01-01 10:00:00.000001", none⟩], 1⟩ : DB)
          ⟨2024, 1, 1, 10, 0, 0, 1⟩ ("whatsapp:+A") ("A") none)
        ("whatsapp:+A")).head? ≠
      some ⟨1, "whatsapp:+A", "A", adapt_datetime ⟨2024, 1, 1, 10, 0, 0, 1⟩, none⟩ := by
  constructor
  · decide
  · decide

/-- Claim C3 (amended): if the appended record's stored timestamp text is
strictly greater than that of every existing record of the same sender
(which holds whenever the clock strictly advanced since those records were
created), then `add_participation` followed immediately by the history query
for the same sender returns the just-appended record first. -/
theorem claim_C3_append_then_history_first (db : DB) (now : PyDateTime)
    (n name : String) (title : Option String)
    (hnew : ∀ r ∈ db.rows, r.whatsapp_number = n →
      r.participation_date.data < (adapt_datetime now).data) :
    (userHistoryRows (add_participation db now n name title) n).head? =
      some ⟨db.next_id, n, name, adapt_datetime now, title⟩ := by
  set newR : Participation := ⟨db.next_id, n, name, adapt_datetime now, title⟩ with hnewR
  have hu : userRecords (add_participation db now n name title) n =
      userRecords db n ++ [newR] := by
    unfold userRecords add_participation
    simp
  have hmem : newR ∈ sortByDateDesc (userRecords (add_participation db now n name title) n) := by
    rw [mem_sortByDateDesc, hu]
    simp
  have hne : sortByDateDesc (userRecords (add_participation db now n name title) n) ≠ [] := by
    intro h0
    rw [h0] at hmem
    cases hmem
  obtain ⟨h, t, hsort⟩ := List.exists_cons_of_ne_nil hne
  have hh : h = newR := by
    by_contra hcon
    have hhm : h ∈ userRecords db n ++ [newR] := by
      rw [← hu, ← mem_sortByDateDesc, hsort]
      exact List.mem_cons_self h t
    have hhu : h ∈ userRecords db n := by
      rcases List.mem_append.mp hhm with hl | hr
      · exact hl
      · exact absurd (List.mem_singleton.mp hr) hcon
    have hhrows : h ∈ db.rows := List.mem_of_mem_filter hhu
    have hhn : h.whatsapp_number = n := by
      have := (List.mem_filter.mp hhu).2
      simpa using this
    have hlt : h.participation_date.data < (adapt_datetime now).data := hnew h hhrows hhn
    have hmem2 : newR ∈ t := by
      rw [hsort] at hmem
      rcases List.mem_cons.mp hmem with heq | hm
      · exact absurd heq.symm hcon
      · exact hm
    have hge := pairwise_dateGe_sortByDateDesc
      (userRecords (add_participation db now n name title) n)
    rw [hsort] at hge
    have := (List.pairwise_cons.mp hge).1 newR hmem2
    rw [hnewR] at this
    exact absurd hlt (not_lt_of_le this)
  rw [userHistoryRows, hsort, hh]
  rfl

/-- Witness for the amended claim C3 at a concrete ledger with a strictly
newer clock value. -/
theorem claim_C3_witness :
    (userHistoryRows
      (add_participation (⟨[⟨0, "whatsapp:+A", "A", "2024-01-01 10:00:00.000001", none⟩], 1⟩ : DB)
        ⟨2024, 1, 2, 9, 30, 0, 5⟩ ("whatsapp:+A") ("A") (some ("x")))
      ("whatsapp:+A")).head? =
      some ⟨1, "whatsapp:+A", "A", adapt_datetime ⟨2024, 1, 2, 9, 30, 0, 5⟩, some ("x")⟩ :=
  claim_C3_append_then_history_first
    ⟨[⟨0, "whatsapp:+A", "A", "2024-01-01 10:00:00.000001", none⟩], 1⟩
    ⟨2024, 1, 2, 9, 30, 0, 5⟩ ("whatsapp:+A") ("A") (some ("x")) (by decide)

/-! ## Claim C4 -/

/-- Claim C4: for every non-empty ledger, the report grouping has pairwise
distinct group keys, its keys are exactly the display names occurring in the
ledger, a record belongs to a group exactly when that group is keyed by its
display name (so each record lies in exactly one group), and the group
counts of the summary sum to the total number of ledger records. -/
theorem claim_C4_report_grouping (recs : List Participation) (hne : recs ≠ []) :
    ((report_groups recs).map Prod.fst).Nodup ∧
    (∀ k, k ∈ (report_groups recs).map Prod.fst ↔ ∃ r ∈ recs, r.profile_name = k) ∧
    (∀ r ∈ recs, ∀ g ∈ report_groups recs, (r ∈ g.2 ↔ g.1 = r.profile_name)) ∧
    ((report_summary recs).map (fun row => row.total_participations)).sum = recs.length := by
  have hkeys : (report_groups recs).map Prod.fst =
      List.insertionSort (fun a b => a ≤ b) (recs.map (fun r => r.profile_name)).dedup := by
    simp only [report_groups, List.map_map]
    exact List.map_id' _
  have hperm : List.Perm
      (List.insertionSort (fun a b => a ≤ b) (recs.map (fun r => r.profile_name)).dedup)
      (recs.map (fun r => r.profile_name)).dedup :=
    List.perm_insertionSort _ _
  refine ⟨?_, ?_, ?_, ?_⟩
  · rw [hkeys]
    exact (List.nodup_dedup _).perm hperm.symm
  · intro k
    rw [hkeys, hperm.mem_iff, List.mem_dedup, List.mem_map]
  · intro r hr g hg
    rcases List.mem_map.mp hg with ⟨k, _, hk⟩
    rw [← hk]
    simp only [List.mem_filter, beq_iff_eq]
    constructor
    · intro h
      exact h.2.symm
    · intro h
      exact ⟨hr, h.symm⟩
  · have hstep : (report_summary recs).map (fun row => row.total_participations) =
        (List.insertionSort (fun a b => a ≤ b) (recs.map (fun r => r.profile_name)).dedup).map
          (fun k => (recs.filter (fun r => r.profile_name == k)).length) := by
      simp only [report_summary, report_groups, List.map_map]
      rfl
    have hcount : ∀ k,
        (recs.filter (fun r => r.profile_name == k)).length =
        (recs.map (fun r => r.profile_name)).count k := by
      intro k
      rw [← List.countP_eq_length_filter]
      rw [List.count, List.countP_map]
      rfl
    rw [hstep]
    rw [(hperm.map (fun k => (recs.filter (fun r => r.profile_name == k)).length)).sum_eq]
    have hmapeq : ((recs.map (fun r => r.profile_name)).dedup).map
          (fun k => (recs.filter (fun r => r.profile_name == k)).length) =
        ((recs.map (fun r => r.profile_name)).dedup).map
          (fun k => (recs.map (fun r => r.profile_name)).count k) :=
      List.map_congr_left (fun k _ => hcount k)
    rw [hmapeq, List.sum_map_count_dedup_eq_length, List.length_map]

/-- Witness for claim C4 at a concrete three-record ledger with two
distinct display names. -/
theorem claim_C4_witness :
    ((report_summary
      [⟨1, "whatsapp:+A", "Ana", "2024-01-01 10:00:00.000001", some ("x")⟩,
       ⟨2, "whatsapp:+A", "Ana", "2024-01-02 10:00:00.000001", none⟩,
       ⟨3, "whatsapp:+B", "Bia", "2024-01-03 10:00:00.000001", none⟩]).map
      (fun row => row.total_participations)).sum = 3 :=
  (claim_C4_report_grouping
    [⟨1, "whatsapp:+A", "Ana", "2024-01-01 10:00:00.000001", some ("x")⟩,
     ⟨2, "whatsapp:+A", "Ana", "2024-01-02 10:00:00.000001", none⟩,
     ⟨3, "whatsapp:+B", "Bia", "2024-01-03 10:00:00.000001", none⟩]
    (by decide)).2.2.2

/-! ## Claim C5 -/

/-- Characterisation of the split at the first colon: when a colon is
present, `afterFirstColon` returns exactly the characters after the first
occurrence. -/
theorem afterFirstColon_spec {cs : List Char} (h : cs.contains ':' = true) :
    ∃ pre post, cs = pre ++ ':' :: post ∧ ':' ∉ pre ∧ afterFirstColon cs = post := by
  induction cs with
  | nil => simp at h
  | cons c rest ih =>
    by_cases hc : c = ':'
    · subst hc
      exact ⟨[], rest, rfl, by simp, by simp [afterFirstColon]⟩
    · have h2 : rest.contains ':' = true := by
        have hd : ':' = c ∨ ':' ∈ rest := by
          simpa [List.contains_cons] using h
        rcases hd with h1 | h1
        · exact absurd h1.symm hc
        · simpa using h1
      obtain ⟨pre, post, heq, hpre, hafter⟩ := ih h2
      refine ⟨c :: pre, post, ?_, ?_, ?_⟩
      · rw [heq]
        rfl
      · intro hmem
        rcases List.mem_cons.mp hmem with h1 | h1
        · exact hc h1.symm
        · exact hpre h1
      · simpa [afterFirstColon, hc] using hafter

/-- Claim C5: for every inbound message whose stripped, lowered text begins
with a record trigger word, the handler appends a participation whose
stored title is everything after the first colon of the original stripped
text, trimmed, when a colon is present, and NULL otherwise; the reply is
the registration confirmation naming the profile. -/
theorem claim_C5_record_trigger_label (db : DB) (now : PyDateTime)
    (admin body fromNumber : String) (profileNameOpt : Option String)
    (htrig : startsTrigger (pyLower (pyStrip body)) = true) :
    (whatsapp_webhook db now admin body fromNumber profileNameOpt).2 =
      .message ("✅ Olá, " ++ profileNameOpt.getD fromNumber ++
        "! Sua participação foi registrada com sucesso!") ∧
    (whatsapp_webhook db now admin body fromNumber profileNameOpt).1 =
      add_participation db now fromNumber (profileNameOpt.getD fromNumber)
        (parsed_video_title (pyStrip body)) ∧
    ((pyStrip body).data.contains ':' = true →
      ∃ pre post, (pyStrip body).data = pre ++ ':' :: post ∧ ':' ∉ pre ∧
        parsed_video_title (pyStrip body) = some (pyStrip ⟨post⟩)) ∧
    ((pyStrip body).data.contains ':' = false →
      parsed_video_title (pyStrip body) = none) := by
  refine ⟨?_, ?_, ?_, ?_⟩
  · simp [whatsapp_webhook, htrig]
  · simp [whatsapp_webhook, htrig]
  · intro hcol
    obtain ⟨pre, post, heq, hpre, hafter⟩ := afterFirstColon_spec hcol
    refine ⟨pre, post, heq, hpre, ?_⟩
    rw [parsed_video_title, if_pos hcol, hafter]
  · intro hcol
    rw [parsed_video_title, if_neg (by simpa using hcol)]

/-- Witness for claim C5 at the specified scenario text. -/
theorem claim_C5_witness :
    startsTrigger (pyLower (pyStrip ("Participei: clipe final"))) = true ∧
    parsed_video_title (pyStrip ("Participei: clipe final")) = some ("clipe final") ∧
    (whatsapp_webhook ⟨[], 0⟩ ⟨2024, 5, 1, 12, 0, 0, 7⟩ ("whatsapp:+0")
        ("Participei: clipe final") ("whatsapp:+5571") (some ("Ana"))).2 =
      .message ("✅ Olá, " ++ (some ("Ana")).getD ("whatsapp:+5571") ++
        "! Sua participação foi registrada com sucesso!") :=
  ⟨by decide, by decide,
   (claim_C5_record_trigger_label ⟨[], 0⟩ ⟨2024, 5, 1, 12, 0, 0, 7⟩ ("whatsapp:+0")
     ("Participei: clipe final") ("whatsapp:+5571") (some ("Ana")) (by decide)).1⟩

/-! ## Claim C6 -/

/-- Claim C6: on an empty ledger, an on-demand report run sends exactly the
one no-records notification and writes no export files, and a scheduled run
(the parameter default, on_demand = false) sends nothing and writes no
export files. -/
theorem claim_C6_empty_ledger_report (base_url : String) :
    (generate_and_send_report [] true base_url).notifications =
      ["ℹ️ Nenhum registro de participação encontrado para gerar o relatório."] ∧
    (generate_and_send_report [] true base_url).files_written = [] ∧
    (generate_and_send_report [] false base_url).notifications = [] ∧
    (generate_and_send_report [] false base_url).files_written = [] :=
  ⟨rfl, rfl, rfl, rfl⟩

/-! ## Claim C7 -/

/-- Claim C7: an inbound message that matches no recognized command (no
record trigger, not the history or help phrase, and none of the admin
phrases when the sender is the admin) mutates nothing and yields the
explicit empty no-content acknowledgment, never a message. -/
theorem claim_C7_unrecognized_silent (db : DB) (now : PyDateTime)
    (admin body fromNumber : String) (profileNameOpt : Option String)
    (h1 : startsTrigger (pyLower (pyStrip body)) = false)
    (h2 : pyLower (pyStrip body) ≠ "/meu historico")
    (h3 : pyLower (pyStrip body) ≠ "/ajuda")
    (h4 : fromNumber = admin →
      pyLower (pyStrip body) ≠ "/relatorio agora" ∧
      pyLower (pyStrip body) ≠ "/ultimos registros" ∧
      strStartsWith (pyLower (pyStrip body)) ("/corrigir ultimo") = false) :
    whatsapp_webhook db now admin body fromNumber profileNameOpt = (db, .empty204) := by
  by_cases ha : fromNumber = admin
  · obtain ⟨g1, g2, g3⟩ := h4 ha
    simp [whatsapp_webhook, h1, h2, h3, ha, g1, g2, g3]
  · simp [whatsapp_webhook, h1, h2, h3, ha]

/-- Witness for claim C7 on an unrecognized greeting from a non-admin
sender (empty text behaves identically). -/
theorem claim_C7_witness :
    whatsapp_webhook (⟨[⟨1, "whatsapp:+5571", "Ana", "2024-01-01 10:00:00.000001", none⟩], 2⟩ : DB)
      ⟨2024, 5, 1, 12, 0, 0, 7⟩ ("whatsapp:+0") ("bom dia") ("whatsapp:+5571") (some ("Ana")) =
      (⟨[⟨1, "whatsapp:+5571", "Ana", "2024-01-01 10:00:00.000001", none⟩], 2⟩, .empty204) :=
  claim_C7_unrecognized_silent
    ⟨[⟨1, "whatsapp:+5571", "Ana", "2024-01-01 10:00:00.000001", none⟩], 2⟩
    ⟨2024, 5, 1, 12, 0, 0, 7⟩ ("whatsapp:+0") ("bom dia") ("whatsapp:+5571") (some ("Ana"))
    (by decide) (by decide) (by decide) (by decide)

/-! ## Claim C8 -/

/-- A true `isPrefixOf` exposes the list as the pattern followed by a
tail. -/
theorem isPrefixOf_exists {p l : List Char} (h : p.isPrefixOf l = true) :
    ∃ t, l = p ++ t := by
  induction p generalizing l with
  | nil => exact ⟨l, rfl⟩
  | cons a as ih =>
    cases l with
    | nil => simp [List.isPrefixOf] at h
    | cons b bs =>
      simp only [List.isPrefixOf, Bool.and_eq_true, beq_iff_eq] at h
      obtain ⟨hab, hrest⟩ := h
      obtain ⟨t, ht⟩ := ih hrest
      exact ⟨t, by rw [hab, ht, List.cons_append]⟩

/-- Claim C8: an admin message beginning with the fix-last phrase and
naming more parts than the bare command (more than two whitespace-separated
parts) deletes nothing — the ledger is returned unchanged — and the handler
yields the safe no-op empty acknowledgment. -/
theorem claim_C8_fix_last_extended_noop (db : DB) (now : PyDateTime)
    (admin body fromNumber : String) (profileNameOpt : Option String)
    (hadmin : fromNumber = admin)
    (hfix : strStartsWith (pyLower (pyStrip body)) ("/corrigir ultimo") = true)
    (hparts : 2 < (pySplit (pyLower (pyStrip body))).length) :
    whatsapp_webhook db now admin body fromNumber profileNameOpt = (db, .empty204) := by
  obtain ⟨t, ht⟩ := isPrefixOf_exists hfix
  have h1 : startsTrigger (pyLower (pyStrip body)) = false := by
    simp [startsTrigger, strStartsWith, ht, List.isPrefixOf]
  have h2 : pyLower (pyStrip body) ≠ "/meu historico" := by
    intro he
    rw [he] at ht
    simp at ht
  have h3 : pyLower (pyStrip body) ≠ "/ajuda" := by
    intro he
    rw [he] at ht
    simp at ht
  have g1 : pyLower (pyStrip body) ≠ "/relatorio agora" := by
    intro he
    rw [he] at ht
    simp at ht
  have g2 : pyLower (pyStrip body) ≠ "/ultimos registros" := by
    intro he
    rw [he] at ht
    simp at ht
  simp [whatsapp_webhook, h1, h2, h3, hadmin, g1, g2, hfix, hparts]

/-- Witness for claim C8: the admin names another sender after the fix-last
phrase; the ledger, which holds one record of the admin, is untouched. -/
theorem claim_C8_witness :
    whatsapp_webhook (⟨[⟨1, "whatsapp:+0", "Admin", "2024-01-01 10:00:00.000001", none⟩], 2⟩ : DB)
      ⟨2024, 5, 1, 12, 0, 0, 7⟩ ("whatsapp:+0") ("/corrigir ultimo whatsapp:+5599")
      ("whatsapp:+0") (some ("Admin")) =
      (⟨[⟨1, "whatsapp:+0", "Admin", "2024-01-01 10:00:00.000001", none⟩], 2⟩, .empty204) :=
  claim_C8_fix_last_extended_noop
    ⟨[⟨1, "whatsapp:+0", "Admin", "2024-01-01 10:00:00.000001", none⟩], 2⟩
    ⟨2024, 5, 1, 12, 0, 0, 7⟩ ("whatsapp:+0") ("/corrigir ultimo whatsapp:+5599")
    ("whatsapp:+0") (some ("Admin")) (by decide) (by decide) (by decide)

/-! ## Claim C9 -/

/-- Claim C9 is false of the code: a record created at a clock value with
zero microseconds is stored without a fractional part, the fixed strptime
format then fails on it, and the history handler raises (HTTP 500) instead
of replying.  This evaluates the embedded code at the failing input. -/
theorem claim_C9_zero_microsecond_parse_fails :
    adapt_datetime ⟨2024, 1, 1, 10, 0, 0, 0⟩ = "2024-01-01 10:00:00" ∧
    pyStrptime (adapt_datetime ⟨2024, 1, 1, 10, 0, 0, 0⟩) = none ∧
    (whatsapp_webhook
      (add_participation ⟨[], 0⟩ ⟨2024, 1, 1, 10, 0, 0, 0⟩ ("whatsapp:+1") ("Ana") none)
      ⟨2024, 1, 1, 10, 0, 1, 0⟩ ("whatsapp:+0") ("/meu historico") ("whatsapp:+1")
      (some ("Ana"))).2 = .error := by
  refine ⟨by decide, by decide, by decide⟩

/-! ## Claim C10 -/

/-- Claim C10: a record-trigger message whose colon is followed only by
whitespace (or nothing) stores the empty-string label, which is distinct
from the NULL label stored when no colon is present, and both the history
and the listing formatting render the empty-string label exactly like an
absent one (no suffix). -/
theorem claim_C10_empty_label_rendering (db : DB) (now : PyDateTime)
    (admin body fromNumber : String) (profileNameOpt : Option String)
    (htrig : startsTrigger (pyLower (pyStrip body)) = true)
    (hcol : (pyStrip body).data.contains ':' = true)
    (hempty : pyStrip ⟨afterFirstColon (pyStrip body).data⟩ = "") :
    (whatsapp_webhook db now admin body fromNumber profileNameOpt).1 =
      add_participation db now fromNumber (profileNameOpt.getD fromNumber) (some ("")) ∧
    some ("") ≠ (none : Option String) ∧
    title_info_history (some ("")) = title_info_history none ∧
    title_info_last10 (some ("")) = title_info_last10 none := by
  refine ⟨?_, by simp, by decide, by decide⟩
  have hp : parsed_video_title (pyStrip body) = some ("") := by
    rw [parsed_video_title, if_pos hcol, hempty]
  simp [whatsapp_webhook, htrig, hp]

/-- Witness for claim C10 on a trigger message whose colon is followed by
spaces only. -/
theorem claim_C10_witness :
    (whatsapp_webhook ⟨[], 0⟩ ⟨2024, 5, 1, 12, 0, 0, 7⟩ ("whatsapp:+0")
      ("Participei:   ") ("whatsapp:+5571") (some ("Ana"))).1 =
      add_participation ⟨[], 0⟩ ⟨2024, 5, 1, 12, 0, 0, 7⟩ ("whatsapp:+5571")
        ((some ("Ana")).getD ("whatsapp:+5571")) (some ("")) :=
  (claim_C10_empty_label_rendering ⟨[], 0⟩ ⟨2024, 5, 1, 12, 0, 0, 7⟩ ("whatsapp:+0")
    ("Participei:   ") ("whatsapp:+5571") (some ("Ana"))
    (by decide) (by decide) (by decide)).1
